import Mathlib

/-!
Verification of the Synthesium caption-timing and scene-composition pipeline.

Python strings are modelled as lists of characters (`Str`), times as exact
rationals (`ℚ`).  Each definition mirrors one function of the repository:
`CaptionService` (src/services/caption_service.py), `WhisperService`
(src/services/whisper_service.py), `VideoComposer` (src/video/composer.py),
`validate_script` (src/video/utils.py) and `create_video` (src/synth.py).
MoviePy clip objects are modelled symbolically by the inductive type `Clip`,
and fallible media operations (font rendering, writing the final file) by
explicit parameters, so that control flow — which Python exceptions are
caught where — is represented by `Except`.
-/

/-- Python strings as sequences of characters. -/
abbrev Str := List Char

/-- Coerce a Lean string literal into the model type. -/
def str (s : String) : Str := s.data

/-- Python `str.strip()`: drop whitespace from both ends. -/
def pyStrip (s : Str) : Str :=
  ((s.dropWhile Char.isWhitespace).reverse.dropWhile Char.isWhitespace).reverse

/-- Worker for `pySplit`: accumulates the current chunk (reversed) while
scanning; a separator flushes the chunk, and empty chunks are never
produced, matching Python `str.split()` with no argument. -/
def pySplitAux (p : Char → Bool) : Str → Str → List Str
  | [], acc => if acc.isEmpty then [] else [acc.reverse]
  | c :: cs, acc =>
    if p c then
      if acc.isEmpty then pySplitAux p cs []
      else acc.reverse :: pySplitAux p cs []
    else pySplitAux p cs (c :: acc)

/-- Python `str.split()`: split on runs of whitespace, discarding empties. -/
def pySplit (s : Str) : List Str := pySplitAux Char.isWhitespace s []

/-- Configuration fields of `CaptionService.__init__` that the timing logic
reads (src/config/settings.py lines 23-33 give the shipped values). -/
structure CaptionConfig where
  display_mode : Str
  word_duration : ℚ
  transition_gap : ℚ
  enabled : Bool
  font : Str
  font_fallback : Str
deriving Repr, DecidableEq

/-- The shipped settings: `single_word_pop`, 0.6 s per word, 0.1 s gap. -/
def defaultCaptionConfig : CaptionConfig :=
  { display_mode := str "single_word_pop"
    word_duration := 0.6
    transition_gap := 0.1
    enabled := true
    font := str "Montserrat-Bold"
    font_fallback := str "Helvetica-Bold" }

/-- One timed word, i.e. one of the dictionaries the services exchange.
Python dictionaries carry an `index` key only on the synthesized path and a
`confidence` key only on the Whisper path, hence the `Option` fields. -/
structure WordEvent where
  word : Str
  start_time : ℚ
  end_time : ℚ
  index : Option ℕ := none
  confidence : Option ℚ := none
deriving Repr, DecidableEq

/-- The `whisper_timing` dictionary handed to `calculate_word_timings`. -/
structure WhisperTiming where
  word_timings : List WordEvent
deriving Repr, DecidableEq

/-- Models `CaptionService.split_text_into_words`: split by spaces, strip each
word, drop empties. -/
def split_text_into_words (text : Str) : List Str :=
  ((pySplit text).map pyStrip).filter (· ≠ [])

/-- The layout loop of the `single_word_pop` branch of
`CaptionService.calculate_word_timings` (lines 74-91): each word starts at
the running time, lasts `awd`, and the running time then advances past the
word and one transition gap. -/
def single_word_pop_layout (awd gap : ℚ) : List Str → ℚ → ℕ → List WordEvent
  | [], _, _ => []
  | w :: ws, current, i =>
    { word := w, start_time := current, end_time := current + awd, index := some i }
      :: single_word_pop_layout awd gap ws (current + awd + gap) (i + 1)

/-- The `else` branch of `calculate_word_timings` (lines 93-109): equal
distribution of the duration over the words. -/
def equal_distribution (words : List Str) (duration : ℚ) : List WordEvent :=
  let word_duration := duration / words.length
  words.mapIdx fun i w =>
    { word := w, start_time := i * word_duration
      end_time := (i + 1) * word_duration, index := some i }

/-- The synthesized-timing path of `CaptionService.calculate_word_timings`
(lines 54-109), reached when no usable Whisper timing is supplied. -/
def fallback_timings (cfg : CaptionConfig) (text : Str) (duration : ℚ) :
    List WordEvent :=
  let words := split_text_into_words text
  if words.isEmpty then []
  else if cfg.display_mode = str "single_word_pop" then
    let word_with_gap := cfg.word_duration + cfg.transition_gap
    let total_needed_time := (words.length : ℚ) * word_with_gap
    let actual_word_duration :=
      if total_needed_time > duration then
        max 0.3 (duration / (words.length : ℚ) - cfg.transition_gap)
      else cfg.word_duration
    single_word_pop_layout actual_word_duration cfg.transition_gap words 0 0
  else
    equal_distribution words duration

/-- Models `CaptionService.calculate_word_timings` (lines 37-109): a truthy
`whisper_timing` with a non-empty `word_timings` list is returned verbatim;
otherwise timings are synthesized from the text. -/
def calculate_word_timings (cfg : CaptionConfig) (text : Str) (duration : ℚ)
    (whisper_timing : Option WhisperTiming) : List WordEvent :=
  match whisper_timing with
  | some wt =>
      if wt.word_timings.isEmpty then fallback_timings cfg text duration
      else wt.word_timings
  | none => fallback_timings cfg text duration

/-- Models `CaptionService.create_progressive_text` (lines 111-138): in
`single_word_pop` mode, the first event whose `[start_time, end_time)`
window contains the current time supplies the word, else the empty
string; otherwise all started words are joined progressively. -/
def create_progressive_text (cfg : CaptionConfig) (word_timings : List WordEvent)
    (current_time : ℚ) : Str :=
  if cfg.display_mode = str "single_word_pop" then
    match word_timings.find?
        (fun w => decide (w.start_time ≤ current_time ∧ current_time < w.end_time)) with
    | some w => w.word
    | none => []
  else
    let visible_words :=
      (word_timings.takeWhile (fun w => decide (w.start_time ≤ current_time))).map
        (·.word)
    (visible_words.intersperse (str " ")).flatten

/-! ## WhisperService (src/services/whisper_service.py) -/

/-- A character kept by the regex `[^\w\s]` deletion in `normalize_text`:
`\w` is alphanumeric or underscore. -/
def isWordChar (c : Char) : Bool := c.isAlphanum || c = '_'

/-- The inner `normalize_text` helper of `validate_transcription`
(lines 80-86): lower-case, delete every character that is neither a word
character nor whitespace, split into tokens. -/
def normalize_text (text : Str) : List Str :=
  let lowered := text.map Char.toLower
  let cleaned := lowered.filter fun c => isWordChar c || c.isWhitespace
  pySplit cleaned

/-- Models `normalize_text(w['word'])[0] if normalize_text(w['word']) else ''`
(line 89): only the first normalized token of a Whisper word survives. -/
def firstNormalizedToken (w : Str) : Str :=
  match normalize_text w with
  | [] => []
  | t :: _ => t

/-- The cleaned Whisper token list of `validate_transcription`
(lines 89-91): first normalized token of each word, empties removed. -/
def whisper_words_clean (whisper_words : List WordEvent) : List Str :=
  (whisper_words.map fun w => firstNormalizedToken w.word).filter (· ≠ [])

/-- The similarity ratio computed by `validate_transcription`
(lines 96-101): the fraction of normalized expected tokens found in the
cleaned Whisper token list, or 0 when there are no expected tokens. -/
def transcription_similarity (whisper_words : List WordEvent)
    (expected_text : Str) : ℚ :=
  let expected_words_clean := normalize_text expected_text
  let matching_words :=
    (expected_words_clean.filter fun w => (whisper_words_clean whisper_words).contains w).length
  if expected_words_clean.isEmpty then 0
  else (matching_words : ℚ) / (expected_words_clean.length : ℚ)

/-- Models `WhisperService.validate_transcription` (lines 65-108). -/
def validate_transcription (whisper_words : List WordEvent)
    (expected_text : Str) : Bool :=
  if whisper_words.isEmpty then false
  else decide (transcription_similarity whisper_words expected_text ≥ 0.6)

/-- Models `max(w['end_time'] for w in word_timings)` over a non-empty list
(line 125); 0 for the empty list, which the caller rules out. -/
def whisper_measured_duration : List WordEvent → ℚ
  | [] => 0
  | [w] => w.end_time
  | w :: w2 :: rest => max w.end_time (whisper_measured_duration (w2 :: rest))

/-- Models `WhisperService.adjust_timings_to_duration` (lines 110-144): identity
below the 0.5 s mismatch threshold, otherwise a uniform rescale of every
event by `target_duration / whisper_duration` (the output dictionaries
carry `word`, `start_time`, `end_time` and a defaulted `confidence`). -/
def adjust_timings_to_duration (word_timings : List WordEvent)
    (target_duration : ℚ) : List WordEvent :=
  if word_timings.isEmpty then word_timings
  else
    let whisper_duration := whisper_measured_duration word_timings
    if |whisper_duration - target_duration| < 0.5 then word_timings
    else
      let scale_factor := target_duration / whisper_duration
      word_timings.map fun w =>
        { word := w.word
          start_time := w.start_time * scale_factor
          end_time := w.end_time * scale_factor
          confidence := some (w.confidence.getD 1) }

/-! ## VideoComposer (src/video/composer.py) -/

/-- MoviePy clip objects, modelled symbolically: only the structure that
`create_caption_clip`, `create_scene_clip` and `create_video` build is
represented. -/
inductive Clip where
  /-- Models `ImageClip(path).set_duration(d)` resized to the frame. -/
  | image (path : Str) (duration : ℚ)
  /-- Models `apply_camera_movement`: the Ken Burns `VideoClip` over a base image
  (the randomly drawn movement kind is abstracted as part of the state). -/
  | animated (base : Clip) (duration : ℚ)
  /-- Models `TextClip(word, font=...)` positioned and timed for one word. -/
  | textClip (word : Str) (font : Str) (start_time duration : ℚ)
  /-- Models `CompositeVideoClip(layers)` with a set duration. -/
  | composite (layers : List Clip) (duration : ℚ)
  /-- Models `clip.set_audio(audio)`. -/
  | withAudio (video : Clip) (audio_path : Str)
  /-- Models `concatenate_videoclips(clips, method="compose")`. -/
  | concatenated (clips : List Clip)

/-- Whether a font renders a given word without raising: the environment
(ImageMagick, installed fonts) decides this, so it is a parameter of the
composer model. -/
abbrev FontRenderer := Str → Str → Bool

/-- The per-word `try/except` of `create_caption_clip` (lines 125-152):
try the preferred font; on failure build the same clip with the fallback
font, a call the `except` block leaves unguarded. -/
def make_text_clip (render_ok : FontRenderer) (font font_fallback : Str)
    (w : WordEvent) : Except Str Clip :=
  if render_ok font w.word then
    .ok (.textClip w.word font w.start_time (w.end_time - w.start_time))
  else if render_ok font_fallback w.word then
    .ok (.textClip w.word font_fallback w.start_time (w.end_time - w.start_time))
  else
    .error (str "font rendering failed")

/-- Models `CaptionService.generate_caption_data` (lines 202-225): `none` models
the `{'enabled': False}` dictionary. -/
def generate_caption_data (cfg : CaptionConfig) (text : Str) (duration : ℚ)
    (whisper_timing : Option WhisperTiming) : Option (List WordEvent) :=
  if !cfg.enabled then none
  else some (calculate_word_timings cfg text duration whisper_timing)

/-- Models `VideoComposer.create_caption_clip` (lines 91-161): `ok none` models
the `return None` paths (captions disabled, or no non-empty word produced
a text clip); an uncaught font exception surfaces as `error`. -/
def create_caption_clip (cfg : CaptionConfig) (render_ok : FontRenderer)
    (text : Str) (duration : ℚ) (whisper_timing : Option WhisperTiming) :
    Except Str (Option Clip) := do
  if !cfg.enabled then return none
  match generate_caption_data cfg text duration whisper_timing with
  | none => return none
  | some word_timings =>
    let renderable := word_timings.filter fun w => pyStrip w.word ≠ []
    let text_clips ← renderable.mapM (make_text_clip render_ok cfg.font cfg.font_fallback)
    if text_clips.isEmpty then return none
    else return some (.composite text_clips duration)

/-- Models `SceneAssets`: the dictionary produced by
`OpenAIService.generate_scene_assets` and consumed by the composer. -/
structure SceneAssets where
  image_path : Str
  audio_path : Str
  voiceover_text : Str
  scene_description : Str
  whisper_timing : Option WhisperTiming
deriving Repr, DecidableEq

/-- The image+motion track of `create_scene_clip` (lines 178-188). -/
def base_video_clip (enable_movement : Bool) (image_path : Str)
    (duration : ℚ) : Clip :=
  let image_clip := Clip.image image_path duration
  if enable_movement then .animated image_clip duration else image_clip

/-- Models `VideoComposer.create_scene_clip` (lines 163-212).  The audio track's
measured duration is the environment's answer, hence the `audio_duration`
parameter; the `except` block only logs and re-raises, so failures
propagate. -/
def create_scene_clip (enable_movement : Bool) (cfg : CaptionConfig)
    (render_ok : FontRenderer) (audio_duration : Str → ℚ)
    (assets : SceneAssets) : Except Str Clip := do
  let duration := audio_duration assets.audio_path
  let video_clip := base_video_clip enable_movement assets.image_path duration
  let caption_clip ← create_caption_clip cfg render_ok assets.voiceover_text
      duration assets.whisper_timing
  match caption_clip with
  | some cap => return .withAudio (.composite [video_clip, cap] duration) assets.audio_path
  | none => return .withAudio video_clip assets.audio_path

/-- Models `VideoComposer.create_video` (lines 214-264).  `write_ok` is whether
`write_videofile` succeeds.  The second component is the list of clips
that were closed: the `clip.close()` loop at lines 254-257 runs only
after a successful write, and the `except` block re-raises without any
cleanup. -/
def VideoComposer.create_video (enable_movement : Bool) (cfg : CaptionConfig)
    (render_ok : FontRenderer) (audio_duration : Str → ℚ)
    (scene_assets_list : List SceneAssets) (write_ok : Bool)
    (output_path : Str) : Except Str Str × List Clip :=
  match scene_assets_list.mapM (create_scene_clip enable_movement cfg render_ok audio_duration) with
  | .error e => (.error e, [])
  | .ok clips =>
    let final_video :=
      match clips with
      | [c] => c
      | cs => .concatenated cs
    if write_ok then (.ok output_path, clips ++ [final_video])
    else (.error (str "write_videofile failed"), [])

/-! ## Script validation and the pipeline entry point
(src/video/utils.py, src/synth.py) -/

/-- One scene of the input script; a missing dictionary key is `none`. -/
structure Scene where
  sceneDescription : Option Str
  voiceoverText : Option Str
deriving Repr, DecidableEq

/-- The per-scene body of `validate_script` (utils.py lines 25-37):
both required fields present and non-empty after stripping. -/
def validate_scene (scene : Scene) : Bool :=
  match scene.sceneDescription, scene.voiceoverText with
  | some d, some v => pyStrip d ≠ [] && pyStrip v ≠ []
  | _, _ => false

/-- Models `validate_script` (utils.py lines 21-39): the loop returns `False` at
the first offending scene, `True` after checking all of them. -/
def validate_script : List Scene → Bool
  | [] => true
  | scene :: rest => if validate_scene scene then validate_script rest else false

/-- Models `create_video` of src/synth.py (lines 17-127), reduced to the order of
its effects: script validation happens before any asset generation, so an
invalid script raises `ValueError("Invalid script format")` with an empty
generation trace; on the valid path `generate_scene_assets` runs once per
scene (the trace records the scene indices, in order) and the composer is
invoked on the generated assets. -/
def Synth.create_video (enable_movement : Bool) (cfg : CaptionConfig)
    (render_ok : FontRenderer) (audio_duration : Str → ℚ)
    (generate_scene_assets : ℕ → Scene → SceneAssets)
    (script : List Scene) (write_ok : Bool) (output_path : Str) :
    Except Str Str × List ℕ :=
  if !validate_script script then (.error (str "Invalid script format"), [])
  else
    let scene_assets_list := script.mapIdx fun i scene => generate_scene_assets i scene
    ((VideoComposer.create_video enable_movement cfg render_ok audio_duration
        scene_assets_list write_ok output_path).1,
     List.range script.length)

/-! ## Specification-side definitions -/

/-- The end time of the last word event, 0 when there is none. -/
def lastEndTime : List WordEvent → ℚ
  | [] => 0
  | [w] => w.end_time
  | _ :: w :: rest => lastEndTime (w :: rest)

/-- The start time of the first word event, 0 when there is none. -/
def firstStartTime : List WordEvent → ℚ
  | [] => 0
  | w :: _ => w.start_time

/-- A word-event sequence "spans exactly `[0, d]` in total": its first
event starts at 0 and its last event ends at `d`. -/
def spans_interval (d : ℚ) (evs : List WordEvent) : Prop :=
  firstStartTime evs = 0 ∧ lastEndTime evs = d

instance (d : ℚ) (evs : List WordEvent) : Decidable (spans_interval d evs) := by
  unfold spans_interval; infer_instance

/-- The WordEvent sequence invariant of the spec (section 3): adjacent
events do not overlap, start times never decrease, and the last event ends
no later than the total scene duration. -/
def word_events_invariant (total_duration : ℚ) (evs : List WordEvent) : Prop :=
  List.Chain' (fun a b => a.end_time ≤ b.start_time) evs ∧
  List.Chain' (fun a b => a.start_time ≤ b.start_time) evs ∧
  lastEndTime evs ≤ total_duration

instance (d : ℚ) (evs : List WordEvent) : Decidable (word_events_invariant d evs) := by
  unfold word_events_invariant; infer_instance

/-- The normalized external token set as the spec's words describe it
(section 4.1.1): every token of the normalization of every external word,
not just the first one. -/
def spec_external_token_set (whisper_words : List WordEvent) : List Str :=
  (whisper_words.map fun w => normalize_text w.word).flatten

/-- The validation ratio as the claim words it: the fraction of normalized
expected tokens found anywhere in the normalized external token set. -/
def spec_claim_similarity (whisper_words : List WordEvent)
    (expected_text : Str) : ℚ :=
  let expected_words_clean := normalize_text expected_text
  let matching_words :=
    (expected_words_clean.filter fun w =>
      (spec_external_token_set whisper_words).contains w).length
  if expected_words_clean.isEmpty then 0
  else (matching_words : ℚ) / (expected_words_clean.length : ℚ)

/-- Success test for the `Except` results of the composer model. -/
def exceptIsOk {ε α : Type _} : Except ε α → Bool
  | .ok _ => true
  | .error _ => false

/-- The word timings of the spec's lookup example (section 8, property 8). -/
def dayTimings : List WordEvent :=
  [{ word := str "Day", start_time := 0, end_time := 3/5 },
   { word := str "1", start_time := 7/10, end_time := 13/10 }]

/-- A concrete scene-asset record used by the composer theorems. -/
def exampleAssets : SceneAssets :=
  { image_path := str "scene_0_image.png"
    audio_path := str "scene_0_audio.mp3"
    voiceover_text := str "Hi"
    scene_description := str "a robot"
    whisper_timing := none }

/-- A scene-asset record whose voiceover text is whitespace only. -/
def exampleEmptyTextAssets : SceneAssets :=
  { image_path := str "scene_1_image.png"
    audio_path := str "scene_1_audio.mp3"
    voiceover_text := str " "
    scene_description := str "a robot"
    whisper_timing := none }

/-! ## Lemmas about the synthesized layout -/

theorem single_word_pop_layout_length (awd gap : ℚ) (ws : List Str) (c : ℚ) (i : ℕ) :
    (single_word_pop_layout awd gap ws c i).length = ws.length := by
  induction ws generalizing c i with
  | nil => rfl
  | cons w ws ih => simp [single_word_pop_layout, ih]

theorem single_word_pop_layout_getElem? (awd gap : ℚ) (ws : List Str) (c : ℚ) (i j : ℕ) :
    (single_word_pop_layout awd gap ws c i)[j]? =
      (ws[j]?).map fun w =>
        { word := w, start_time := c + j * (awd + gap)
          end_time := c + j * (awd + gap) + awd, index := some (i + j) } := by
  induction ws generalizing c i j with
  | nil => simp [single_word_pop_layout]
  | cons w ws ih =>
    cases j with
    | zero => simp [single_word_pop_layout]
    | succ j =>
      rw [single_word_pop_layout]
      simp only [List.getElem?_cons_succ, ih]
      cases ws[j]? with
      | none => rfl
      | some w2 =>
        simp only [Option.map_some', Option.some.injEq, WordEvent.mk.injEq]
        refine ⟨trivial, by push_cast; ring, by push_cast; ring, by omega, trivial⟩

theorem single_word_pop_layout_chain' (awd gap : ℚ) (hawd : 0 ≤ awd) (hgap : 0 ≤ gap)
    (ws : List Str) (c : ℚ) (i : ℕ) :
    List.Chain' (fun a b : WordEvent =>
        a.end_time ≤ b.start_time ∧ a.start_time ≤ b.start_time)
      (single_word_pop_layout awd gap ws c i) := by
  induction ws generalizing c i with
  | nil => simp [single_word_pop_layout]
  | cons w ws ih =>
    rw [single_word_pop_layout, List.chain'_cons']
    refine ⟨?_, ih _ _⟩
    intro b hb
    cases ws with
    | nil => simp [single_word_pop_layout] at hb
    | cons w2 ws2 =>
      rw [single_word_pop_layout] at hb
      simp only [List.head?_cons, Option.mem_def, Option.some.injEq] at hb
      subst hb
      constructor
      · simp; linarith
      · simp; linarith

theorem lastEndTime_cons_cons (a b : WordEvent) (rest : List WordEvent) :
    lastEndTime (a :: b :: rest) = lastEndTime (b :: rest) := rfl

theorem lastEndTime_single_word_pop_layout (awd gap : ℚ) (ws : List Str) (c : ℚ) (i : ℕ)
    (h : ws ≠ []) :
    lastEndTime (single_word_pop_layout awd gap ws c i) =
      c + ws.length * (awd + gap) - gap := by
  induction ws generalizing c i with
  | nil => cases h rfl
  | cons w ws ih =>
    cases ws with
    | nil =>
      simp [single_word_pop_layout, lastEndTime]
      ring
    | cons w2 ws2 =>
      rw [single_word_pop_layout, single_word_pop_layout, lastEndTime_cons_cons,
        ← single_word_pop_layout, ih _ _ (by simp)]
      simp only [List.length_cons]
      push_cast
      ring

theorem firstStartTime_single_word_pop_layout (awd gap : ℚ) (w : Str) (ws : List Str)
    (c : ℚ) (i : ℕ) :
    firstStartTime (single_word_pop_layout awd gap (w :: ws) c i) = c := rfl

theorem calculate_word_timings_none_eq_layout (cfg : CaptionConfig) (text : Str) (D : ℚ)
    (hmode : cfg.display_mode = str "single_word_pop")
    (hne : split_text_into_words text ≠ []) :
    calculate_word_timings cfg text D none =
      single_word_pop_layout
        (if ((split_text_into_words text).length : ℚ) *
              (cfg.word_duration + cfg.transition_gap) > D
         then max 0.3 (D / ((split_text_into_words text).length : ℚ) - cfg.transition_gap)
         else cfg.word_duration)
        cfg.transition_gap (split_text_into_words text) 0 0 := by
  unfold calculate_word_timings fallback_timings
  rw [if_neg (by simp [hne]), if_pos hmode]

/-! ## Claim theorems -/

/-- C2: for a non-empty text whose word count `W` and the configured word
duration and gap satisfy `W * (word_duration + gap) ≤ D` with `D > 0`, no
external timing and `single_word_pop` mode, `calculate_word_timings`
returns exactly `W` events laid out sequentially — the first event starts
at 0, each later event starts one transition gap after the previous event
ends, every event's visible duration equals the configured word duration
exactly, and the last event ends no later than `D`. -/
theorem C2_uncompressed_layout (cfg : CaptionConfig) (text : Str) (D : ℚ)
    (hmode : cfg.display_mode = str "single_word_pop")
    (hgap : 0 ≤ cfg.transition_gap)
    (hD : 0 < D)
    (hne : split_text_into_words text ≠ [])
    (hfit : ((split_text_into_words text).length : ℚ) *
      (cfg.word_duration + cfg.transition_gap) ≤ D) :
    (calculate_word_timings cfg text D none).length =
        (split_text_into_words text).length ∧
    firstStartTime (calculate_word_timings cfg text D none) = 0 ∧
    (∀ j : ℕ, ∀ e ∈ (calculate_word_timings cfg text D none)[j]?,
      e.end_time - e.start_time = cfg.word_duration) ∧
    (∀ j : ℕ, ∀ e ∈ (calculate_word_timings cfg text D none)[j]?,
      ∀ e2 ∈ (calculate_word_timings cfg text D none)[j+1]?,
        e2.start_time = e.end_time + cfg.transition_gap) ∧
    lastEndTime (calculate_word_timings cfg text D none) ≤ D := by
  have hcalc := calculate_word_timings_none_eq_layout cfg text D hmode hne
  rw [if_neg (not_lt.mpr hfit)] at hcalc
  rw [hcalc]
  refine ⟨single_word_pop_layout_length _ _ _ _ _, ?_, ?_, ?_, ?_⟩
  · obtain ⟨w, ws, hws⟩ := List.exists_cons_of_ne_nil hne
    rw [hws]
    exact firstStartTime_single_word_pop_layout _ _ _ _ _ _
  · intro j e he
    rw [single_word_pop_layout_getElem?] at he
    cases hw : (split_text_into_words text)[j]? with
    | none => rw [hw] at he; simp at he
    | some w =>
      rw [hw] at he
      simp only [Option.map_some', Option.mem_def, Option.some.injEq] at he
      subst he
      ring
  · intro j e he e2 he2
    rw [single_word_pop_layout_getElem?] at he he2
    cases hw : (split_text_into_words text)[j]? with
    | none => rw [hw] at he; simp at he
    | some w =>
      cases hw2 : (split_text_into_words text)[j+1]? with
      | none => rw [hw2] at he2; simp at he2
      | some w2 =>
        rw [hw] at he
        rw [hw2] at he2
        simp only [Option.map_some', Option.mem_def, Option.some.injEq] at he he2
        subst he; subst he2
        push_cast
        ring
  · rw [lastEndTime_single_word_pop_layout _ _ _ _ _ hne]
    linarith

/-- Witness for C2 at text "a b", duration 2 with the shipped settings. -/
theorem C2_uncompressed_layout_witness :
    split_text_into_words (str "a b") ≠ [] ∧
    ((split_text_into_words (str "a b")).length : ℚ) *
      (defaultCaptionConfig.word_duration + defaultCaptionConfig.transition_gap) ≤ 2 ∧
    lastEndTime (calculate_word_timings defaultCaptionConfig (str "a b") 2 none) ≤ 2 :=
  ⟨of_decide_eq_true (by with_unfolding_all rfl),
   of_decide_eq_true (by with_unfolding_all rfl),
   (C2_uncompressed_layout defaultCaptionConfig (str "a b") 2 rfl
      (of_decide_eq_true (by with_unfolding_all rfl))
      (of_decide_eq_true (by with_unfolding_all rfl))
      (of_decide_eq_true (by with_unfolding_all rfl))
      (of_decide_eq_true (by with_unfolding_all rfl))).2.2.2.2⟩

/-- Counterexample to C1 as stated: for text "a b", duration 1 and the
shipped settings (word duration 0.6, gap 0.1) the compressed branch is
taken (2 × 0.7 > 1), yet the events are [0, 0.4] and [0.5, 0.9] — the
last event ends at 0.9 = D − gap, so the sequence does not span exactly
[0, 1]. -/
theorem C1_span_counterexample :
    (0:ℚ) < 1 ∧
    split_text_into_words (str "a b") ≠ [] ∧
    (1:ℚ) < ((split_text_into_words (str "a b")).length : ℚ) *
      (defaultCaptionConfig.word_duration + defaultCaptionConfig.transition_gap) ∧
    ¬ spans_interval 1 (calculate_word_timings defaultCaptionConfig (str "a b") 1 none) :=
  of_decide_eq_true (by with_unfolding_all rfl)

/-- C1 amended: under the claim's hypotheses, and provided the 0.3 s
readability floor does not override the compressed slot
(`D / W − gap ≥ 0.3`), the synthesized sequence spans exactly
`[0, D − gap]` — the schedule including the final transition gap spans
exactly `[0, D]` — and every event's visible duration is at least
0.3 seconds. -/
theorem C1_compressed_layout_amended (cfg : CaptionConfig) (text : Str) (D : ℚ)
    (hmode : cfg.display_mode = str "single_word_pop")
    (hD : 0 < D)
    (hne : split_text_into_words text ≠ [])
    (hover : D < ((split_text_into_words text).length : ℚ) *
      (cfg.word_duration + cfg.transition_gap))
    (hfloor : (0.3:ℚ) ≤ D / ((split_text_into_words text).length : ℚ) -
      cfg.transition_gap) :
    spans_interval (D - cfg.transition_gap) (calculate_word_timings cfg text D none) ∧
    ∀ j : ℕ, ∀ e ∈ (calculate_word_timings cfg text D none)[j]?,
      (0.3:ℚ) ≤ e.end_time - e.start_time := by
  have hW : (0:ℚ) < ((split_text_into_words text).length : ℚ) := by
    exact_mod_cast List.length_pos.mpr hne
  have hcalc := calculate_word_timings_none_eq_layout cfg text D hmode hne
  rw [if_pos hover] at hcalc
  rw [hcalc]
  have hmax : max (0.3:ℚ)
      (D / ((split_text_into_words text).length : ℚ) - cfg.transition_gap) =
      D / ((split_text_into_words text).length : ℚ) - cfg.transition_gap :=
    max_eq_right hfloor
  constructor
  · constructor
    · obtain ⟨w, ws, hws⟩ := List.exists_cons_of_ne_nil hne
      rw [hws]
      exact firstStartTime_single_word_pop_layout _ _ _ _ _ _
    · rw [lastEndTime_single_word_pop_layout _ _ _ _ _ hne, hmax]
      field_simp
      ring
  · intro j e he
    rw [single_word_pop_layout_getElem?] at he
    cases hw : (split_text_into_words text)[j]? with
    | none => rw [hw] at he; simp at he
    | some w =>
      rw [hw] at he
      simp only [Option.map_some', Option.mem_def, Option.some.injEq] at he
      subst he
      simp only [add_sub_cancel_left]
      exact le_max_left _ _

/-- Witness for the amended C1 at text "a b", duration 1 with the shipped
settings: the events span [0, 0.9] and both last 0.4 s ≥ 0.3 s. -/
theorem C1_compressed_layout_amended_witness :
    (1:ℚ) < ((split_text_into_words (str "a b")).length : ℚ) *
      (defaultCaptionConfig.word_duration + defaultCaptionConfig.transition_gap) ∧
    spans_interval (1 - defaultCaptionConfig.transition_gap)
      (calculate_word_timings defaultCaptionConfig (str "a b") 1 none) :=
  ⟨of_decide_eq_true (by with_unfolding_all rfl),
   (C1_compressed_layout_amended defaultCaptionConfig (str "a b") 1 rfl
      (of_decide_eq_true (by with_unfolding_all rfl))
      (of_decide_eq_true (by with_unfolding_all rfl))
      (of_decide_eq_true (by with_unfolding_all rfl))
      (of_decide_eq_true (by with_unfolding_all rfl))).1⟩

/-- Counterexample to C5 as stated: `calculate_word_timings` returns
supplied external (Whisper) timing verbatim without enforcing any
invariant, so an external event ending at 10 passes straight through a
call with total duration 1 and the returned sequence violates the
WordEvent invariant. -/
theorem C5_invariant_counterexample :
    ¬ word_events_invariant 1
      (calculate_word_timings defaultCaptionConfig (str "Day") 1
        (some { word_timings := [{ word := str "Day", start_time := 0, end_time := 10 }] })) := by
  intro h
  obtain ⟨-, -, h3⟩ := h
  rw [show calculate_word_timings defaultCaptionConfig (str "Day") 1
      (some { word_timings := [{ word := str "Day", start_time := 0, end_time := 10 }] }) =
      [{ word := str "Day", start_time := 0, end_time := 10 }] from rfl] at h3
  rw [show lastEndTime [{ word := str "Day", start_time := 0, end_time := 10 }] =
      10 from rfl] at h3
  norm_num at h3

/-- C5 amended: synthesized (fallback) sequences in `single_word_pop` mode
satisfy the WordEvent invariant — strictly non-overlapping, monotonically
non-decreasing start times, last end at most the duration — provided the
0.3 s floor does not override compression (either `W * (wd + gap) ≤ D` or
`D / W − gap ≥ 0.3`); supplied external timing, by contrast, is returned
verbatim, so no invariant is guaranteed on the pass-through path (it is
returned unchanged, whatever it contains). -/
theorem C5_invariant_amended (cfg : CaptionConfig) (text : Str) (D : ℚ)
    (hmode : cfg.display_mode = str "single_word_pop")
    (hgap : 0 ≤ cfg.transition_gap)
    (hwd : 0 ≤ cfg.word_duration)
    (hD : 0 ≤ D)
    (hcase : ((split_text_into_words text).length : ℚ) *
        (cfg.word_duration + cfg.transition_gap) ≤ D ∨
      (0.3:ℚ) ≤ D / ((split_text_into_words text).length : ℚ) - cfg.transition_gap) :
    word_events_invariant D (calculate_word_timings cfg text D none) ∧
    ∀ wt : WhisperTiming, wt.word_timings ≠ [] →
      calculate_word_timings cfg text D (some wt) = wt.word_timings := by
  constructor
  · by_cases hne : split_text_into_words text = []
    · rw [calculate_word_timings, fallback_timings]
      rw [if_pos (by simp [hne])]
      exact ⟨List.chain'_nil, List.chain'_nil, hD⟩
    · have hcalc := calculate_word_timings_none_eq_layout cfg text D hmode hne
      set W : ℚ := ((split_text_into_words text).length : ℚ) with hWdef
      have hW : (0:ℚ) < W := by
        rw [hWdef]; exact_mod_cast List.length_pos.mpr hne
      -- the visible duration actually used by the layout
      set awd : ℚ :=
        if W * (cfg.word_duration + cfg.transition_gap) > D
        then max 0.3 (D / W - cfg.transition_gap)
        else cfg.word_duration with hawdDef
      have hawd : 0 ≤ awd := by
        rw [hawdDef]
        split
        · exact le_trans (by norm_num) (le_max_left _ _)
        · exact hwd
      have hlast : lastEndTime (single_word_pop_layout awd cfg.transition_gap
          (split_text_into_words text) 0 0) ≤ D := by
        rw [lastEndTime_single_word_pop_layout _ _ _ _ _ hne]
        rw [hawdDef]
        split
        · rename_i hover
          rcases hcase with hfit | hfloor
          · exact absurd hover (not_lt.mpr hfit)
          · rw [max_eq_right hfloor]
            have : W * (D / W - cfg.transition_gap + cfg.transition_gap) = D := by
              field_simp
              ring
            rw [← hWdef, this]
            linarith
        · rw [← hWdef]
          rename_i hfit
          push_neg at hfit
          linarith
      have hchain := single_word_pop_layout_chain' awd cfg.transition_gap hawd hgap
        (split_text_into_words text) 0 0
      rw [hcalc]
      exact ⟨(hchain.imp fun a b h => h.1), (hchain.imp fun a b h => h.2), hlast⟩
  · intro wt hwt
    rw [calculate_word_timings, if_neg (by simp [hwt])]

/-- Witness for the amended C5 at text "a b", duration 1 (compressed
branch, floor not triggered) and a pass-through external sequence. -/
theorem C5_invariant_amended_witness :
    (0:ℚ) ≤ 1 ∧
    word_events_invariant 1
      (calculate_word_timings defaultCaptionConfig (str "a b") 1 none) ∧
    calculate_word_timings defaultCaptionConfig (str "a b") 1
        (some { word_timings := dayTimings }) = dayTimings :=
  ⟨of_decide_eq_true (by with_unfolding_all rfl),
   (C5_invariant_amended defaultCaptionConfig (str "a b") 1 rfl
      (of_decide_eq_true (by with_unfolding_all rfl))
      (of_decide_eq_true (by with_unfolding_all rfl))
      (of_decide_eq_true (by with_unfolding_all rfl))
      (Or.inr (of_decide_eq_true (by with_unfolding_all rfl)))).1,
   (C5_invariant_amended defaultCaptionConfig (str "a b") 1 rfl
      (of_decide_eq_true (by with_unfolding_all rfl))
      (of_decide_eq_true (by with_unfolding_all rfl))
      (of_decide_eq_true (by with_unfolding_all rfl))
      (Or.inr (of_decide_eq_true (by with_unfolding_all rfl)))).2
     { word_timings := dayTimings }
     (of_decide_eq_true (by with_unfolding_all rfl))⟩

/-- C6: in `single_word_pop` mode, `create_progressive_text` returns the
word of an event whose half-open interval `[start_time, end_time)`
contains the query time, and returns the empty string when no event's
interval contains it. -/
theorem C6_single_word_lookup (cfg : CaptionConfig) (word_timings : List WordEvent)
    (t : ℚ) (hmode : cfg.display_mode = str "single_word_pop") :
    ((∀ e ∈ word_timings, ¬ (e.start_time ≤ t ∧ t < e.end_time)) →
      create_progressive_text cfg word_timings t = []) ∧
    ((∃ e ∈ word_timings, e.start_time ≤ t ∧ t < e.end_time) →
      ∃ e ∈ word_timings, (e.start_time ≤ t ∧ t < e.end_time) ∧
        create_progressive_text cfg word_timings t = e.word) := by
  rw [create_progressive_text, if_pos hmode]
  cases hfind : word_timings.find?
      (fun w => decide (w.start_time ≤ t ∧ t < w.end_time)) with
  | none =>
    rw [List.find?_eq_none] at hfind
    constructor
    · intro _; rfl
    · rintro ⟨e, he, hcontain⟩
      exact absurd (decide_eq_true hcontain) (hfind e he)
  | some w =>
    constructor
    · intro hnone
      have hw := List.find?_some hfind
      rw [decide_eq_true_eq] at hw
      exact absurd hw (hnone w (List.mem_of_find?_eq_some hfind))
    · intro _
      refine ⟨w, List.mem_of_find?_eq_some hfind, ?_, rfl⟩
      have hw := List.find?_some hfind
      rwa [decide_eq_true_eq] at hw

/-- Witness for C6 on the spec's example sequence
`[{Day, 0, 0.6}, {1, 0.7, 1.3}]`: the lookup yields "Day" at t = 0.3,
the empty string at t = 0.65 (a gap), and "1" at t = 1.0. -/
theorem C6_single_word_lookup_witness :
    create_progressive_text defaultCaptionConfig dayTimings (3/10) = str "Day" ∧
    create_progressive_text defaultCaptionConfig dayTimings (13/20) = [] ∧
    create_progressive_text defaultCaptionConfig dayTimings 1 = str "1" :=
  ⟨of_decide_eq_true (by with_unfolding_all rfl),
   (C6_single_word_lookup defaultCaptionConfig dayTimings (13/20) rfl).1
     (of_decide_eq_true (by with_unfolding_all rfl)),
   of_decide_eq_true (by with_unfolding_all rfl)⟩

/-- Counterexample to C4 as stated: for the external word list
`[{word: "so distant"}]` and expected text "distant", the normalized
external token set of the claim contains both "so" and "distant", so the
claimed fraction is 1 ≥ 0.6 — yet `validate_transcription` returns false,
because the code keeps only the FIRST normalized token of each external
word (`normalize_text(w['word'])[0]`), which here is just "so". -/
theorem C4_validation_counterexample :
    ¬ (validate_transcription
         [{ word := str "so distant", start_time := 0, end_time := 1 }]
         (str "distant") = true ↔
       ([{ word := str "so distant", start_time := 0, end_time := 1 }] ≠
          ([] : List WordEvent) ∧
        (0.6:ℚ) ≤ spec_claim_similarity
          [{ word := str "so distant", start_time := 0, end_time := 1 }]
          (str "distant"))) :=
  of_decide_eq_true (by with_unfolding_all rfl)

/-- C4 amended: `validate_transcription` returns true iff the external
word list is non-empty and the fraction of normalized expected tokens
found among the first normalized tokens of the external words (the ratio
`transcription_similarity` computes) is at least 0.6; an empty external
word list always yields false. -/
theorem C4_validation_amended (whisper_words : List WordEvent) (expected_text : Str) :
    (validate_transcription whisper_words expected_text = true ↔
      (whisper_words ≠ [] ∧
        (0.6:ℚ) ≤ transcription_similarity whisper_words expected_text)) ∧
    validate_transcription [] expected_text = false := by
  refine ⟨?_, rfl⟩
  rw [validate_transcription]
  rcases eq_or_ne whisper_words [] with h | h
  · subst h; simp
  · rw [if_neg (by simp [h])]
    simp [h, ge_iff_le]

/-- C3: for a non-empty word-timing list with positive measured duration
(the maximum end time), `adjust_timings_to_duration` is the identity when
the measured duration is within 0.5 s of the target, and otherwise returns
a list of the same length with the same words in the same order in which
every event's start and end time are multiplied by exactly
`target / measured`. -/
theorem C3_duration_reconciliation (word_timings : List WordEvent) (target : ℚ)
    (hne : word_timings ≠ [])
    (hpos : 0 < whisper_measured_duration word_timings) :
    (|whisper_measured_duration word_timings - target| < 0.5 →
      adjust_timings_to_duration word_timings target = word_timings) ∧
    (¬ |whisper_measured_duration word_timings - target| < 0.5 →
      (adjust_timings_to_duration word_timings target).length = word_timings.length ∧
      ∀ j : ℕ, ∀ e ∈ word_timings[j]?,
        ∀ e2 ∈ (adjust_timings_to_duration word_timings target)[j]?,
          e2.word = e.word ∧
          e2.start_time =
            e.start_time * (target / whisper_measured_duration word_timings) ∧
          e2.end_time =
            e.end_time * (target / whisper_measured_duration word_timings)) := by
  have hemp : ¬ word_timings.isEmpty = true := by simp [hne]
  constructor
  · intro hclose
    rw [adjust_timings_to_duration, if_neg hemp, if_pos hclose]
  · intro hfar
    rw [adjust_timings_to_duration, if_neg hemp, if_neg hfar]
    refine ⟨List.length_map _ _, ?_⟩
    intro j e he e2 he2
    rw [List.getElem?_map, he, Option.map_some'] at he2
    simp only [Option.mem_def, Option.some.injEq] at he2
    subst he2
    exact ⟨rfl, rfl, rfl⟩

/-- Witness for C3 on the single event `{hi, 0, 1}` with target duration
2: the measured duration 1 differs by 1 ≥ 0.5, so all times are scaled by
exactly 2. -/
theorem C3_duration_reconciliation_witness :
    [({ word := str "hi", start_time := 0, end_time := 1 } : WordEvent)] ≠ [] ∧
    (0:ℚ) < whisper_measured_duration
      [{ word := str "hi", start_time := 0, end_time := 1 }] ∧
    (adjust_timings_to_duration
        [{ word := str "hi", start_time := 0, end_time := 1 }] 2).length = 1 :=
  ⟨of_decide_eq_true (by with_unfolding_all rfl),
   of_decide_eq_true (by with_unfolding_all rfl),
   by
    have h := ((C3_duration_reconciliation
        [{ word := str "hi", start_time := 0, end_time := 1 }] 2
        (of_decide_eq_true (by with_unfolding_all rfl))
        (of_decide_eq_true (by with_unfolding_all rfl))).2
        (of_decide_eq_true (by with_unfolding_all rfl))).1
    rw [h]
    rfl⟩

/-! ## Lemmas about tokenization -/

theorem pySplitAux_chunks (p : Char → Bool) :
    ∀ (s acc : Str), (∀ c ∈ acc, p c = false) →
      ∀ l ∈ pySplitAux p s acc, l ≠ [] ∧ ∀ c ∈ l, p c = false := by
  intro s
  induction s with
  | nil =>
    intro acc hacc l hl
    simp only [pySplitAux] at hl
    split at hl
    · simp at hl
    · rename_i hne
      simp only [List.mem_singleton] at hl
      subst hl
      refine ⟨?_, fun c hc => hacc c (List.mem_reverse.mp hc)⟩
      simp only [Ne, List.reverse_eq_nil_iff]
      intro h
      rw [h] at hne
      simp at hne
  | cons c0 cs ih =>
    intro acc hacc l hl
    simp only [pySplitAux] at hl
    split at hl
    · split at hl
      · exact ih [] (by simp) l hl
      · rename_i hne
        rcases List.mem_cons.mp hl with hl | hl
        · subst hl
          refine ⟨?_, fun c hc => hacc c (List.mem_reverse.mp hc)⟩
          simp only [Ne, List.reverse_eq_nil_iff]
          intro h
          rw [h] at hne
          simp at hne
        · exact ih [] (by simp) l hl
    · rename_i hp
      refine ih (c0 :: acc) ?_ l hl
      intro c hc
      rcases List.mem_cons.mp hc with rfl | hc
      · simpa using hp
      · exact hacc c hc

theorem pySplitAux_eq_nil_iff (p : Char → Bool) :
    ∀ (s acc : Str), pySplitAux p s acc = [] ↔ (∀ c ∈ s, p c = true) ∧ acc = [] := by
  intro s
  induction s with
  | nil =>
    intro acc
    simp only [pySplitAux]
    split
    · rename_i h
      rw [List.isEmpty_iff] at h
      simp [h]
    · rename_i h
      rw [List.isEmpty_iff] at h
      simp [h]
  | cons c0 cs ih =>
    intro acc
    simp only [pySplitAux]
    split
    · rename_i hp
      split
      · rename_i hacc
        rw [List.isEmpty_iff] at hacc
        rw [ih []]
        constructor
        · rintro ⟨hall, -⟩
          refine ⟨fun c hc => ?_, hacc⟩
          rcases List.mem_cons.mp hc with rfl | hc
          · exact hp
          · exact hall c hc
        · rintro ⟨hall, -⟩
          exact ⟨fun c hc => hall c (List.mem_cons_of_mem _ hc), rfl⟩
      · rename_i hacc
        rw [List.isEmpty_iff] at hacc
        constructor
        · intro h; simp at h
        · rintro ⟨-, rfl⟩; simp at hacc
    · rename_i hp
      rw [ih (c0 :: acc)]
      constructor
      · rintro ⟨-, h⟩; simp at h
      · rintro ⟨hall, -⟩
        exact absurd (hall c0 (by simp)) (by simpa using hp)

theorem pyStrip_eq_self {s : Str} (h : ∀ c ∈ s, c.isWhitespace = false) :
    pyStrip s = s := by
  rw [pyStrip]
  have h1 : s.dropWhile Char.isWhitespace = s := by
    cases s with
    | nil => rfl
    | cons c cs =>
      rw [List.dropWhile_cons, if_neg (by simp [h c (List.mem_cons_self _ _)])]
  rw [h1]
  have h2 : s.reverse.dropWhile Char.isWhitespace = s.reverse := by
    cases hs : s.reverse with
    | nil => rfl
    | cons c cs =>
      have hc : c.isWhitespace = false := by
        refine h c (List.mem_reverse.mp ?_)
        rw [hs]
        exact List.mem_cons_self _ _
      rw [List.dropWhile_cons, if_neg (by simp [hc])]
  rw [h2, List.reverse_reverse]

theorem all_whitespace_of_split_text_eq_nil {t : Str}
    (h : split_text_into_words t = []) : ∀ c ∈ t, c.isWhitespace = true := by
  intro c hc
  by_contra hcw
  have hsplit : pySplit t ≠ [] := fun hnil =>
    absurd (((pySplitAux_eq_nil_iff Char.isWhitespace t []).mp hnil).1 c hc) hcw
  obtain ⟨l, ls, hls⟩ := List.exists_cons_of_ne_nil hsplit
  have hl := pySplitAux_chunks Char.isWhitespace t [] (by simp) l
    (by rw [pySplit] at hls; rw [hls]; exact List.mem_cons_self _ _)
  have hmem : pyStrip l ∈ split_text_into_words t := by
    rw [split_text_into_words]
    apply List.mem_filter.mpr
    refine ⟨List.mem_map_of_mem pyStrip ?_, ?_⟩
    · rw [hls]; exact List.mem_cons_self _ _
    · rw [pyStrip_eq_self hl.2]
      simpa using hl.1
  rw [h] at hmem
  exact absurd hmem (List.not_mem_nil _)

theorem toLower_eq_self_of_isWhitespace {c : Char} (h : c.isWhitespace = true) :
    c.toLower = c := by
  have hcases : ((c = ' ' ∨ c = '\t') ∨ c = '\r') ∨ c = '\n' := by
    simpa [Char.isWhitespace] using h
  rcases hcases with ((rfl | rfl) | rfl) | rfl <;> decide

theorem normalize_text_eq_nil_of_split {t : Str}
    (h : split_text_into_words t = []) : normalize_text t = [] := by
  have hws := all_whitespace_of_split_text_eq_nil h
  simp only [normalize_text, pySplit]
  rw [pySplitAux_eq_nil_iff]
  refine ⟨?_, rfl⟩
  intro c hc
  rw [List.mem_filter] at hc
  obtain ⟨hcmem, -⟩ := hc
  rw [List.mem_map] at hcmem
  obtain ⟨c0, hc0, rfl⟩ := hcmem
  rw [toLower_eq_self_of_isWhitespace (hws c0 hc0)]
  exact hws c0 hc0

theorem validate_transcription_eq_false_of_expected_nil
    (ws : List WordEvent) {t : Str} (h : normalize_text t = []) :
    validate_transcription ws t = false := by
  rw [validate_transcription]
  split
  · rfl
  · have hsim : transcription_similarity ws t = 0 := by
      rw [transcription_similarity]
      simp [h]
    rw [hsim]
    exact decide_eq_false (by norm_num)

/-- C7: if captions are globally disabled, or the voiceover text tokenizes
to zero words, `create_caption_clip` returns no caption layer and
`create_scene_clip` still successfully produces an image+motion+audio clip
without raising.  The whisper-timing hypothesis is the pipeline invariant
established by `generate_scene_assets`: timing is attached only after
`validate_transcription` passed for this very text (and validation can
never pass for a zero-word text, since its normalized token list is
empty). -/
theorem C7_no_caption_layer (enable_movement : Bool) (cfg : CaptionConfig)
    (render_ok : FontRenderer) (audio_duration : Str → ℚ) (assets : SceneAssets)
    (hvalidated : ∀ wt, assets.whisper_timing = some wt →
      validate_transcription wt.word_timings assets.voiceover_text = true)
    (hzero : cfg.enabled = false ∨ split_text_into_words assets.voiceover_text = []) :
    create_caption_clip cfg render_ok assets.voiceover_text
        (audio_duration assets.audio_path) assets.whisper_timing = .ok none ∧
    create_scene_clip enable_movement cfg render_ok audio_duration assets =
      .ok (.withAudio
        (base_video_clip enable_movement assets.image_path
          (audio_duration assets.audio_path))
        assets.audio_path) := by
  have hcap : ∀ d : ℚ, create_caption_clip cfg render_ok assets.voiceover_text
      d assets.whisper_timing = .ok none := by
    intro d
    rcases hzero with hdis | hempty
    · simp only [create_caption_clip, hdis]
      rfl
    · have hwt : assets.whisper_timing = none := by
        cases hwhis : assets.whisper_timing with
        | none => rfl
        | some wt =>
          have hval := hvalidated wt hwhis
          have hfalse := validate_transcription_eq_false_of_expected_nil
            wt.word_timings (normalize_text_eq_nil_of_split hempty)
          rw [hval] at hfalse
          cases hfalse
      rw [hwt]
      cases henab : cfg.enabled with
      | false =>
        simp only [create_caption_clip, henab]
        rfl
      | true =>
        have hfb : fallback_timings cfg assets.voiceover_text d = [] := by
          rw [fallback_timings, if_pos (by simp [hempty])]
        simp only [create_caption_clip, generate_caption_data,
          calculate_word_timings, henab, hfb]
        rfl
  refine ⟨hcap _, ?_⟩
  rw [create_scene_clip]
  simp only [hcap (audio_duration assets.audio_path)]
  rfl

/-- Witness for C7: whitespace-only voiceover text, no whisper timing,
the shipped caption settings — the composed clip is exactly
image+motion+audio with no caption overlay. -/
theorem C7_no_caption_layer_witness :
    split_text_into_words (str " ") = [] ∧
    create_scene_clip false defaultCaptionConfig (fun _ _ => true) (fun _ => 3)
        exampleEmptyTextAssets =
      .ok (.withAudio (base_video_clip false (str "scene_1_image.png") 3)
        (str "scene_1_audio.mp3")) :=
  ⟨of_decide_eq_true (by with_unfolding_all rfl),
   (C7_no_caption_layer false defaultCaptionConfig (fun _ _ => true) (fun _ => 3)
      exampleEmptyTextAssets
      (fun wt h => by simp [exampleEmptyTextAssets] at h)
      (Or.inr (of_decide_eq_true (by with_unfolding_all rfl)))).2⟩

theorem mapM_ok_of_forall {α β γ : Type _} (f : α → Except γ β) :
    ∀ l : List α, (∀ x ∈ l, ∃ y, f x = .ok y) → ∃ ys, l.mapM f = .ok ys := by
  intro l
  induction l with
  | nil => intro _; exact ⟨[], rfl⟩
  | cons x xs ih =>
    intro h
    obtain ⟨y, hy⟩ := h x (List.mem_cons_self _ _)
    obtain ⟨ys, hys⟩ := ih fun z hz => h z (List.mem_cons_of_mem _ hz)
    exact ⟨y :: ys, by rw [List.mapM_cons, hy, hys]; rfl⟩

/-- Counterexample to C8 as stated: the per-word `except` block that
substitutes the fallback font calls `TextClip` again unguarded, so when
the fallback font fails to render too, the exception propagates and the
scene is aborted — the substitution path CAN raise. -/
theorem C8_font_fallback_counterexample :
    create_scene_clip true defaultCaptionConfig (fun _ _ => false) (fun _ => 1)
      exampleAssets = .error (str "font rendering failed") := by
  with_unfolding_all rfl

/-- C8 amended: for every word, if rendering with the preferred font
fails, `create_caption_clip` substitutes the configured fallback font for
that word, and — provided the fallback font itself renders every word
successfully — the caption construction never raises. -/
theorem C8_font_fallback_amended (cfg : CaptionConfig) (render_ok : FontRenderer)
    (text : Str) (duration : ℚ) (wt : Option WhisperTiming)
    (hfb : ∀ e ∈ calculate_word_timings cfg text duration wt,
      pyStrip e.word ≠ [] → render_ok cfg.font_fallback e.word = true) :
    (∀ e ∈ calculate_word_timings cfg text duration wt,
      pyStrip e.word ≠ [] → render_ok cfg.font e.word = false →
      make_text_clip render_ok cfg.font cfg.font_fallback e =
        .ok (.textClip e.word cfg.font_fallback e.start_time
          (e.end_time - e.start_time))) ∧
    ∃ r, create_caption_clip cfg render_ok text duration wt = .ok r := by
  constructor
  · intro e he hne hpref
    rw [make_text_clip, if_neg (by simp [hpref]), if_pos (hfb e he hne)]
  · cases henab : cfg.enabled with
    | false => exact ⟨none, by simp only [create_caption_clip, henab]; rfl⟩
    | true =>
      obtain ⟨ys, hys⟩ := mapM_ok_of_forall
        (make_text_clip render_ok cfg.font cfg.font_fallback)
        ((calculate_word_timings cfg text duration wt).filter
          fun w => pyStrip w.word ≠ [])
        (by
          intro e he
          rw [List.mem_filter] at he
          obtain ⟨hmem, hstrip⟩ := he
          rw [decide_eq_true_eq] at hstrip
          by_cases hpref : render_ok cfg.font e.word = true
          · exact ⟨_, by rw [make_text_clip, if_pos hpref]⟩
          · exact ⟨_, by
              rw [make_text_clip, if_neg hpref,
                if_pos (hfb e hmem hstrip)]⟩)
      have hstep : create_caption_clip cfg render_ok text duration wt =
          (do
            let text_clips ←
              ((calculate_word_timings cfg text duration wt).filter
                fun w => pyStrip w.word ≠ []).mapM
                (make_text_clip render_ok cfg.font cfg.font_fallback)
            if text_clips.isEmpty then pure none
            else pure (some (.composite text_clips duration))) := by
        simp only [create_caption_clip, generate_caption_data, henab]
        rfl
      refine ⟨if ys.isEmpty then none else some (.composite ys duration), ?_⟩
      rw [hstep, hys]
      change (if ys.isEmpty = true then (pure none : Except Str (Option Clip))
          else pure (some (Clip.composite ys duration))) =
        Except.ok (if ys.isEmpty = true then none
          else some (Clip.composite ys duration))
      by_cases hni : ys.isEmpty = true
      · rw [if_pos hni, if_pos hni]; rfl
      · rw [if_neg hni, if_neg hni]; rfl

/-- Witness for the amended C8: the preferred Montserrat font fails for
every word while Helvetica renders, text "Hi", duration 1 — the word's
clip is built with the fallback font and the caption clip is produced. -/
theorem C8_font_fallback_amended_witness :
    ∃ r, create_caption_clip defaultCaptionConfig
      (fun f _ => f == str "Helvetica-Bold") (str "Hi") 1 none = .ok r :=
  (C8_font_fallback_amended defaultCaptionConfig
    (fun f _ => f == str "Helvetica-Bold") (str "Hi") 1 none
    (of_decide_eq_true (by with_unfolding_all rfl))).2

/-- C9 (code bug): the clip clean-up loop of `VideoComposer.create_video`
(composer.py lines 254-257) sits inside the `try` block AFTER
`write_videofile`, and the `except` block re-raises without cleanup — so
on the failing-write path the function exits by exception with NO clip
closed, although a scene clip had been successfully created.  The first
conjunct evaluates the model at the failing input (one valid scene,
`write_videofile` raising) and shows the closed-clip list is empty; the
second shows the scene-clip stage had succeeded, so an open clip existed
to leak. -/
theorem C9_clip_leak_on_write_failure :
    VideoComposer.create_video false defaultCaptionConfig (fun _ _ => true)
      (fun _ => 1) [exampleAssets] false (str "out.mp4") =
      (.error (str "write_videofile failed"), []) ∧
    exceptIsOk ([exampleAssets].mapM
      (create_scene_clip false defaultCaptionConfig (fun _ _ => true)
        (fun _ => 1))) = true := by
  constructor
  · with_unfolding_all rfl
  · with_unfolding_all rfl

theorem validate_scene_eq_false_iff (scene : Scene) :
    validate_scene scene = false ↔
      scene.sceneDescription = none ∨ scene.voiceoverText = none ∨
      (∃ d, scene.sceneDescription = some d ∧ pyStrip d = []) ∨
      (∃ v, scene.voiceoverText = some v ∧ pyStrip v = []) := by
  obtain ⟨sd, vt⟩ := scene
  cases sd with
  | none => simp [validate_scene]
  | some d =>
    cases vt with
    | none => simp [validate_scene]
    | some v =>
      simp only [validate_scene]
      rw [Bool.and_eq_false_iff]
      simp

/-- C10: `validate_script` returns false exactly when some scene lacks the
`sceneDescription` or `voiceoverText` field or has an empty or
whitespace-only value for one of them, and in that case the pipeline entry
point raises the "Invalid script format" error with an empty generation
trace — no scene asset is generated. -/
theorem C10_validation_gate (script : List Scene) (enable_movement : Bool)
    (cfg : CaptionConfig) (render_ok : FontRenderer) (audio_duration : Str → ℚ)
    (generate_scene_assets : ℕ → Scene → SceneAssets) (write_ok : Bool)
    (output_path : Str) :
    (validate_script script = false ↔
      ∃ scene ∈ script,
        scene.sceneDescription = none ∨ scene.voiceoverText = none ∨
        (∃ d, scene.sceneDescription = some d ∧ pyStrip d = []) ∨
        (∃ v, scene.voiceoverText = some v ∧ pyStrip v = [])) ∧
    (validate_script script = false →
      Synth.create_video enable_movement cfg render_ok audio_duration
        generate_scene_assets script write_ok output_path =
        (.error (str "Invalid script format"), [])) := by
  constructor
  · induction script with
    | nil => simp [validate_script]
    | cons scene rest ih =>
      rw [validate_script]
      by_cases hs : validate_scene scene = true
      · rw [if_pos hs, ih]
        constructor
        · rintro ⟨s, hmem, hbad⟩
          exact ⟨s, List.mem_cons_of_mem _ hmem, hbad⟩
        · rintro ⟨s, hmem, hbad⟩
          rcases List.mem_cons.mp hmem with rfl | hmem
          · have hfalse := (validate_scene_eq_false_iff s).mpr hbad
            rw [hs] at hfalse
            cases hfalse
          · exact ⟨s, hmem, hbad⟩
      · rw [if_neg hs]
        constructor
        · intro _
          exact ⟨scene, List.mem_cons_self _ _,
            (validate_scene_eq_false_iff scene).mp (eq_false_of_ne_true hs)⟩
        · intro _
          rfl
  · intro hval
    rw [Synth.create_video, hval]
    rfl

/-- Witness for C10: a script whose single scene has a whitespace-only
voiceover text is rejected before any asset generation. -/
theorem C10_validation_gate_witness :
    validate_script
      [{ sceneDescription := some (str "x"), voiceoverText := some (str " ") }] =
      false ∧
    Synth.create_video false defaultCaptionConfig (fun _ _ => true) (fun _ => 1)
      (fun _ _ => exampleAssets)
      [{ sceneDescription := some (str "x"), voiceoverText := some (str " ") }]
      true (str "out.mp4") = (.error (str "Invalid script format"), []) :=
  ⟨of_decide_eq_true (by with_unfolding_all rfl),
   (C10_validation_gate
      [{ sceneDescription := some (str "x"), voiceoverText := some (str " ") }]
      false defaultCaptionConfig (fun _ _ => true) (fun _ => 1)
      (fun _ _ => exampleAssets) true (str "out.mp4")).2
    (of_decide_eq_true (by with_unfolding_all rfl))⟩
